import Mathlib

/-!
Shallow embedding of `src/GessGame.py` (a Gess rule engine).

The board is a 20x20 grid of cells.  Python list indexing semantics are
modelled exactly: an index `i` with `0 ≤ i < 20` is used directly, an index
with `-20 ≤ i < 0` wraps to `i + 20`, and anything else raises `IndexError`.
Exceptions (`KeyError`, `ValueError`, `IndexError`) are modelled with an
explicit exception type; only the handlers present in the source catch them,
everything else surfaces as a `crash` outcome of the whole call.
-/

set_option maxRecDepth 10000

namespace Gess

/-- The three cell values stored in the board lists: "E", "B", "W". -/
inductive Cell where
  | E : Cell
  | B : Cell
  | W : Cell
deriving DecidableEq, Repr

/-- Player identity strings "BLACK" / "WHITE". -/
inductive Player where
  | BLACK : Player
  | WHITE : Player
deriving DecidableEq, Repr

/-- Game-state strings "UNFINISHED", "BLACK_WON", "WHITE_WON". -/
inductive Status where
  | UNFINISHED : Status
  | BLACK_WON : Status
  | WHITE_WON : Status
deriving DecidableEq, Repr

/-- `self._current_player[0]`: the one-character stone tag of a player. -/
def ownCell : Player → Cell
  | .BLACK => .B
  | .WHITE => .W

/-- `f"{self._current_player}_WON"`. -/
def wonOf : Player → Status
  | .BLACK => .BLACK_WON
  | .WHITE => .WHITE_WON

/-- The Python exceptions that the source can raise. -/
inductive PyExn where
  | keyError : PyExn
  | valueError : PyExn
  | indexError : PyExn
deriving DecidableEq, Repr

instance {ε α : Type} [DecidableEq ε] [DecidableEq α] : DecidableEq (Except ε α)
  | .error a, .error b =>
    if h : a = b then .isTrue (h ▸ rfl)
    else .isFalse fun hc => h (Except.error.inj hc)
  | .error _, .ok _ => .isFalse fun hc => Except.noConfusion hc
  | .ok _, .error _ => .isFalse fun hc => Except.noConfusion hc
  | .ok a, .ok b =>
    if h : a = b then .isTrue (h ▸ rfl)
    else .isFalse fun hc => h (Except.ok.inj hc)

/-- The board: 20 rows of 20 cells, as a total function on in-range indices. -/
def Board : Type := Fin 20 → Fin 20 → Cell

instance : DecidableEq Board := by
  unfold Board; infer_instance

/-- Python list-index resolution for a list of length 20: `0 ≤ i < 20` is
used directly, `-20 ≤ i < 0` wraps to `i + 20`, otherwise `IndexError`. -/
def pyResolve (i : Int) : Except PyExn (Fin 20) :=
  if h : 0 ≤ i ∧ i < 20 then
    .ok ⟨i.toNat, by omega⟩
  else if h' : -20 ≤ i ∧ i < 0 then
    .ok ⟨(i + 20).toNat, by omega⟩
  else
    .error .indexError

/-- `self._board[r][c]` with Python indexing semantics. -/
def pyGet (b : Board) (p : Int × Int) : Except PyExn Cell :=
  match pyResolve p.1 with
  | .error e => .error e
  | .ok r =>
    match pyResolve p.2 with
    | .error e => .error e
    | .ok c => .ok (b r c)

/-- Point update of the board at a resolved coordinate. -/
def setR (b : Board) (p : Fin 20 × Fin 20) (v : Cell) : Board :=
  fun r c => if r = p.1 ∧ c = p.2 then v else b r c

/-- `self._board[r][c] = v` with Python indexing semantics. -/
def pySet (b : Board) (p : Int × Int) (v : Cell) : Except PyExn Board :=
  match pyResolve p.1 with
  | .error e => .error e
  | .ok r =>
    match pyResolve p.2 with
    | .error e => .error e
    | .ok c => .ok (setR b (r, c) v)

/-- `Footprint.to_full_footprint`: the 9 coordinates of a piece in the
source's fixed order [center, NW, W, SW, S, N, NE, E, SE]. -/
def footprintCoords (p : Int × Int) : List (Int × Int) :=
  [(p.1, p.2),
   (p.1 - 1, p.2 - 1),
   (p.1, p.2 - 1),
   (p.1 + 1, p.2 - 1),
   (p.1 + 1, p.2),
   (p.1 - 1, p.2),
   (p.1 - 1, p.2 + 1),
   (p.1, p.2 + 1),
   (p.1 + 1, p.2 + 1)]

/-- The `column_dict` of `to_grid_coordinate`: letters a..t map to 0..19,
anything else raises `KeyError`. -/
def colOfChar (ch : Char) : Except PyExn Int :=
  if 'a' ≤ ch ∧ ch ≤ 't' then
    .ok ((ch.toNat : Int) - ('a'.toNat : Int))
  else
    .error .keyError

/-- The `column_dict` of `from_grid_coordinate`: 0..19 map to letters a..t,
anything else raises `KeyError`. -/
def charOfCol (i : Int) : Except PyExn Char :=
  if 0 ≤ i ∧ i < 20 then
    .ok (Char.ofNat ('a'.toNat + i.toNat))
  else
    .error .keyError

/-- Value of a nonempty all-digit character list. -/
def digitsVal : List Char → Option Nat
  | [] => none
  | cs =>
    if cs.all (·.isDigit) then
      some (cs.foldl (fun acc c => acc * 10 + (c.toNat - '0'.toNat)) 0)
    else
      none

/-- Python `int(s)` restricted to the forms the engine ever produces or is
fed in this development: an optional leading minus sign followed by a
nonempty digit string.  Anything else raises `ValueError`. -/
def pyInt : List Char → Except PyExn Int
  | '-' :: rest =>
    match digitsVal rest with
    | some n => .ok (-(n : Int))
    | none => .error .valueError
  | cs =>
    match digitsVal cs with
    | some n => .ok (n : Int)
    | none => .error .valueError

/-- `Footprint.to_grid_coordinate`: decode a human coordinate string.
`s[0]` on an empty string raises `IndexError`; a letter outside a..t raises
`KeyError` (the only exception `make_move` catches); `int(s[1:])` raises
`ValueError` on a non-integer suffix.  The row is `20 - int(s[1:])` with NO
range check, so out-of-range numbers decode silently. -/
def decode (s : String) : Except PyExn (Int × Int) :=
  match s.data with
  | [] => .error .indexError
  | ch :: rest =>
    match colOfChar ch with
    | .error e => .error e
    | .ok col =>
      match pyInt rest with
      | .error e => .error e
      | .ok n => .ok (20 - n, col)

/-- `from_grid_coordinate`: encode a grid coordinate as letter + `str(20-r)`.
Raises `KeyError` when the column is outside 0..19; the row is unchecked. -/
def encode (p : Int × Int) : Except PyExn String :=
  match charOfCol p.2 with
  | .error e => .error e
  | .ok ch => .ok (String.mk (ch :: (toString (20 - p.1)).data))

/-- One center step of the path walk as the source performs it: encode the
new center to a human string with `from_grid_coordinate`, then build a new
`Footprint` from it (which decodes the string again). -/
def stepCenter (p : Int × Int) : Except PyExn (Int × Int) :=
  match encode p with
  | .error e => .error e
  | .ok s => decode s

/-- The mutable fields of a `GessGame` instance that the core logic touches
(the cosmetic fields are fixed: the empty placeholder stays "E"). -/
structure GState where
  gameState : Status
  current : Player
  waiting : Player
  board : Board
deriving DecidableEq

/-- An all-empty board row. -/
def rowE : List Cell := [.E, .E, .E, .E, .E, .E, .E, .E, .E, .E,
                         .E, .E, .E, .E, .E, .E, .E, .E, .E, .E]

/-- The initial `self._board` of `GessGame.__init__`, row by row. -/
def initRows : List (List Cell) :=
  [rowE,
   [.E, .E, .W, .E, .W, .E, .W, .W, .W, .W, .W, .W, .W, .W, .E, .W, .E, .W, .E, .E],
   [.E, .W, .W, .W, .E, .W, .E, .W, .W, .W, .W, .E, .W, .E, .W, .E, .W, .W, .W, .E],
   [.E, .E, .W, .E, .W, .E, .W, .W, .W, .W, .W, .W, .W, .W, .E, .W, .E, .W, .E, .E],
   rowE,
   rowE,
   [.E, .E, .W, .E, .E, .W, .E, .E, .W, .E, .E, .W, .E, .E, .W, .E, .E, .W, .E, .E],
   rowE,
   rowE,
   rowE,
   rowE,
   rowE,
   rowE,
   [.E, .E, .B, .E, .E, .B, .E, .E, .B, .E, .E, .B, .E, .E, .B, .E, .E, .B, .E, .E],
   rowE,
   rowE,
   [.E, .E, .B, .E, .B, .E, .B, .B, .B, .B, .B, .B, .B, .B, .E, .B, .E, .B, .E, .E],
   [.E, .B, .B, .B, .E, .B, .E, .B, .B, .B, .B, .E, .B, .E, .B, .E, .B, .B, .B, .E],
   [.E, .E, .B, .E, .B, .E, .B, .B, .B, .B, .B, .B, .B, .B, .E, .B, .E, .B, .E, .E],
   rowE]

/-- The initial board as a function. -/
def initBoard : Board :=
  fun r c => ((initRows.getD r.val []).getD c.val .E)

/-- The state built by `GessGame.__init__`. -/
def initState : GState :=
  { gameState := .UNFINISHED, current := .BLACK, waiting := .WHITE, board := initBoard }

/-- `GessGame.resign_game`: sets the non-resigning player as winner.  There
is no terminal-state guard; the players are not touched. -/
def resignGame (s : GState) : GState :=
  if s.current = .BLACK then
    { s with gameState := .WHITE_WON }
  else
    { s with gameState := .BLACK_WON }

/-- The specific rejection messages `make_move` can print before returning
`False`. -/
inductive Reason where
  | badInput : Reason
  | containsOpponent : Reason
  | noStones : Reason
  | tooFar : Reason
  | badDirection : Reason
  | obstructed : Reason
  | invalidMovement : Reason
deriving DecidableEq, Repr

/-- The loop body of `is_valid_piece`: walk the 9 footprint cells in order,
counting the current player's stones and returning early (reason
`containsOpponent`) at the first cell holding an opponent stone.  Any board
read can raise `IndexError`, which is NOT caught anywhere on this path. -/
def validPieceLoop (b : Board) (cur wait : Cell) :
    List (Int × Int) → Nat → Except PyExn (Option Reason)
  | [], cnt => .ok (if cnt = 0 then some .noStones else none)
  | p :: rest, cnt =>
    match pyGet b p with
    | .error e => .error e
    | .ok v =>
      if v = wait then .ok (some .containsOpponent)
      else validPieceLoop b cur wait rest (if v = cur then cnt + 1 else cnt)

/-- `is_valid_piece` as a decision: `none` means the piece is valid. -/
def validPiece (b : Board) (cur wait : Cell) (sc : Int × Int) :
    Except PyExn (Option Reason) :=
  validPieceLoop b cur wait (footprintCoords sc) 0

/-- `spaces_allowed`: 17 spaces when the start center holds an own stone,
else 3; reject when either | delta | exceeds the allowance. -/
def spacesAllowed (b : Board) (cur : Cell) (sc dc : Int × Int) :
    Except PyExn Bool :=
  match pyGet b sc with
  | .error e => .error e
  | .ok v =>
    let allowed : Int := if v = cur then 17 else 3
    .ok (¬((sc.1 - dc.1).natAbs > allowed ∨ (sc.2 - dc.2).natAbs > allowed) : Bool)

/-- The 8 compass direction strings of `direction_allowed`, plus "invalid". -/
inductive Dir where
  | west | east | south | north
  | northwest | southwest | northeast | southeast
  | invalid
deriving DecidableEq, Repr

/-- The `desired_direction` elif-chain of `direction_allowed`: the direction
is determined purely from the SIGNS of the coordinate differences between
the two centers (magnitudes are never compared). -/
def desiredDirection (s d : Int × Int) : Dir :=
  if s.1 = d.1 ∧ s.2 > d.2 then .west
  else if s.1 = d.1 ∧ s.2 < d.2 then .east
  else if s.1 < d.1 ∧ s.2 = d.2 then .south
  else if s.1 > d.1 ∧ s.2 = d.2 then .north
  else if s.1 > d.1 ∧ s.2 > d.2 then .northwest
  else if s.1 < d.1 ∧ s.2 > d.2 then .southwest
  else if s.1 > d.1 ∧ s.2 < d.2 then .northeast
  else if s.1 < d.1 ∧ s.2 < d.2 then .southeast
  else .invalid

/-- The index-to-direction table of `direction_allowed` (index 0, the
center, grants no direction). -/
def dirOfIndex : Nat → Option Dir
  | 1 => some .northwest
  | 2 => some .west
  | 3 => some .southwest
  | 4 => some .south
  | 5 => some .north
  | 6 => some .northeast
  | 7 => some .east
  | 8 => some .southeast
  | _ => none

/-- The `allowed_directions` loop of `direction_allowed`: each footprint
cell holding an own stone contributes its direction. -/
def allowedDirsLoop (b : Board) (cur : Cell) :
    List (Int × Int) → Nat → Except PyExn (List Dir)
  | [], _ => .ok []
  | p :: rest, i =>
    match pyGet b p with
    | .error e => .error e
    | .ok v =>
      match allowedDirsLoop b cur rest (i + 1) with
      | .error e => .error e
      | .ok ds =>
        if v = cur then
          match dirOfIndex i with
          | some dir => .ok (dir :: ds)
          | none => .ok ds
        else .ok ds

/-- `direction_allowed`: the desired direction when it is anchored by an own
stone, otherwise `none` (the source returns `False`). -/
def directionAllowed (b : Board) (cur : Cell) (sc dc : Int × Int) :
    Except PyExn (Option Dir) :=
  match allowedDirsLoop b cur (footprintCoords sc) 0 with
  | .error e => .error e
  | .ok ds =>
    let desired := desiredDirection sc dc
    .ok (if desired ∈ ds then some desired else none)

/-- The direction-specific data of `obstruction_check`: the leading-edge
footprint indices checked during the walk and the per-step center delta. -/
def dirData : Dir → List Nat × (Int × Int)
  | .southeast => ([3, 4, 6, 7, 8], (1, 1))
  | .southwest => ([1, 2, 3, 4, 8], (1, -1))
  | .northwest => ([1, 2, 3, 5, 6], (-1, -1))
  | .north => ([1, 5, 6], (-1, 0))
  | .northeast => ([1, 5, 6, 7, 8], (-1, 1))
  | .west => ([1, 2, 3], (0, -1))
  | .south => ([3, 4, 8], (1, 0))
  | .east => ([6, 7, 8], (0, 1))
  | .invalid => ([], (0, 0))

/-- The inner cell scan of `directional_check`: read the key locations in
order, returning `false` at the first non-empty one. -/
def keysClear (b : Board) : List (Int × Int) → Except PyExn Bool
  | [] => .ok true
  | p :: rest =>
    match pyGet b p with
    | .error e => .error e
    | .ok v => if v ≠ .E then .ok false else keysClear b rest

/-- Result of the `while True` walk of `directional_check`. -/
inductive WalkRes where
  | done (clear : Bool) : WalkRes
  | crash (e : PyExn) : WalkRes
  | fuelOut : WalkRes
deriving DecidableEq, Repr

/-- The `while True` loop of `directional_check`, with fuel standing in for
unbounded iteration.  NOTE (faithful to the source): `key_locations` is
computed ONCE from the first temporary footprint and never recomputed, so
the same cells are inspected at every step.  Board reads raising
`IndexError` are caught by the `except IndexError` and yield `False`
("Invalid movement!"); `from_grid_coordinate`'s `KeyError` is NOT caught. -/
def walkLoop (b : Board) (dest : Int × Int) (keys : List (Int × Int))
    (dr dc : Int) : Nat → Int × Int → WalkRes
  | 0, _ => .fuelOut
  | fuel + 1, center =>
    if center = dest then .done true
    else
      match keysClear b keys with
      | .error .indexError => .done false
      | .error e => .crash e
      | .ok false => .done false
      | .ok true =>
        match stepCenter (center.1 + dr, center.2 + dc) with
        | .error e => .crash e
        | .ok c' => walkLoop b dest keys dr dc fuel c'

/-- Fuel bound for the walk; any concrete run in this development uses far
fewer steps (the Python loop always terminates or raises). -/
def walkFuel : Nat := 1000

/-- `obstruction_check`: build the first temporary footprint one step from
the start (its encoding can raise an uncaught `KeyError`), fix the key
locations from it, then run the walk. -/
def obstructionCheck (b : Board) (sc dc : Int × Int) (dir : Dir) : WalkRes :=
  let data := dirData dir
  let dr := data.2.1
  let dc' := data.2.2
  match stepCenter (sc.1 + dr, sc.2 + dc') with
  | .error e => .crash e
  | .ok tempC =>
    let keys := (data.1).filterMap (fun i => (footprintCoords tempC).get? i)
    walkLoop b dc keys dr dc' walkFuel tempC

/-- The first collection loop of `execute_move`: read the 9 start cells in
order. -/
def readCells (b : Board) : List (Int × Int) → Except PyExn (List Cell)
  | [] => .ok []
  | p :: rest =>
    match pyGet b p with
    | .error e => .error e
    | .ok v =>
      match readCells b rest with
      | .error e => .error e
      | .ok vs => .ok (v :: vs)

/-- A sequence of board writes, stopping at the first failing one and
reporting the board as mutated so far (Python mutates in place). -/
def writeSeq : Board → List ((Int × Int) × Cell) → Board × Option PyExn
  | b, [] => (b, none)
  | b, (p, v) :: rest =>
    match pySet b p v with
    | .ok b' => writeSeq b' rest
    | .error e => (b, some e)

/-- `execute_move`: snapshot the 9 start cells, clear the 9 start cells,
then write the snapshot into the 9 destination cells in the same order.  An
exception mid-way leaves the board partially mutated. -/
def executeMove (b : Board) (sc dc : Int × Int) : Except (PyExn × Board) Board :=
  match readCells b (footprintCoords sc) with
  | .error e => .error (e, b)
  | .ok contents =>
    match writeSeq b ((footprintCoords sc).map (fun p => (p, Cell.E))) with
    | (b1, some e) => .error (e, b1)
    | (b1, none) =>
      match writeSeq b1 ((footprintCoords dc).zip contents) with
      | (b2, some e) => .error (e, b2)
      | (b2, none) => .ok b2

/-- The ring-counting loop of `check_for_win` for one candidate footprint:
read the 9 cells in order and count the waiting player's stones; any
`IndexError` is caught by the `except IndexError: continue` and the
candidate is skipped. -/
def countOwned (b : Board) (w : Cell) (coords : List (Int × Int)) :
    Except PyExn Nat :=
  match readCells b coords with
  | .error e => .error e
  | .ok vs => .ok (vs.count w)

/-- Whether `check_for_win` counts a ring at a given candidate cell: the
cell must be empty and the 9-cell count of waiting-player stones must reach
exactly 8 without an `IndexError`. -/
def codeRingAt (b : Board) (w : Cell) (r c : Fin 20) : Bool :=
  b r c = .E &&
    match countOwned b w (footprintCoords ((r.val : Int), (c.val : Int))) with
    | .ok n => n == 8
    | .error _ => false

/-- The full board scan of `check_for_win`: does the waiting player still
have a ring anywhere? -/
def hasRingCode (b : Board) (w : Cell) : Bool :=
  (List.finRange 20).any fun r => (List.finRange 20).any fun c => codeRingAt b w r c

/-- `check_for_win`: if the waiting player has no ring, the current player
wins. -/
def checkForWin (s : GState) : GState :=
  if hasRingCode s.board (ownCell s.waiting) then s
  else { s with gameState := wonOf s.current }

/-- `update_game`: after a move, swap the players unless the game has
ended (in which case `game_over` merely prints). -/
def updateGame (s : GState) : GState :=
  if s.gameState ≠ .UNFINISHED then s
  else { s with current := s.waiting, waiting := s.current }

/-- The observable outcome of one `make_move` call. -/
inductive MoveRes where
  | accepted : MoveRes
  | rejected (why : Reason) : MoveRes
  | crash (e : PyExn) : MoveRes
  | fuelOut : MoveRes
deriving DecidableEq, Repr

/-- The decision of the pure validation phase of `make_move` (everything
before `execute_move`; none of these steps writes to the board). -/
inductive Verdict where
  | reject (why : Reason) : Verdict
  | crashPre (e : PyExn) : Verdict
  | noFuel : Verdict
  | exec (sc dc : Int × Int) : Verdict
deriving DecidableEq, Repr

/-- The validation phase of `GessGame.make_move`, faithful to the source
control flow: decode both coordinates (only `KeyError` is caught, as "Bad
input!"), then `is_valid_piece`, `spaces_allowed`, `direction_allowed`,
`obstruction_check`.  There is NO check of the game state anywhere. -/
def moveVerdict (s : GState) (a b : String) : Verdict :=
  match decode a with
  | .error .keyError => .reject .badInput
  | .error e => .crashPre e
  | .ok sc =>
    match decode b with
    | .error .keyError => .reject .badInput
    | .error e => .crashPre e
    | .ok dc =>
      match validPiece s.board (ownCell s.current) (ownCell s.waiting) sc with
      | .error e => .crashPre e
      | .ok (some why) => .reject why
      | .ok none =>
        match spacesAllowed s.board (ownCell s.current) sc dc with
        | .error e => .crashPre e
        | .ok false => .reject .tooFar
        | .ok true =>
          match directionAllowed s.board (ownCell s.current) sc dc with
          | .error e => .crashPre e
          | .ok none => .reject .badDirection
          | .ok (some dir) =>
            match obstructionCheck s.board sc dc dir with
            | .crash e => .crashPre e
            | .fuelOut => .noFuel
            | .done false => .reject .obstructed
            | .done true => .exec sc dc

/-- `GessGame.make_move`: run the validation phase and, if it passes,
`execute_move`, `check_for_win`, `update_game`.  The returned state is the
state after the call (unchanged on every rejection). -/
def makeMove (s : GState) (a b : String) : MoveRes × GState :=
  match moveVerdict s a b with
  | .reject why => (.rejected why, s)
  | .crashPre e => (.crash e, s)
  | .noFuel => (.fuelOut, s)
  | .exec sc dc =>
    match executeMove s.board sc dc with
    | .error (e, b') => (.crash e, { s with board := b' })
    | .ok b' => (.accepted, updateGame (checkForWin { s with board := b' }))

/-- A call into the mutating API of the session. -/
inductive Op where
  | move (a b : String) : Op
  | resign : Op

/-- Apply one API call to the state. -/
def stepOp (s : GState) : Op → GState
  | .move a b => (makeMove s a b).2
  | .resign => resignGame s

/-- Run a sequence of API calls from a state. -/
def runOps (s : GState) : List Op → GState
  | [] => s
  | op :: rest => runOps (stepOp s op) rest

/-! ### Spec-side comparison definitions

These definitions follow the specification's words (not the source) and are
used only to compare the source-derived definitions against what the spec
claims. -/

/-- The path-obstruction walk as the specification describes it: at each
intermediate center the footprint is re-derived and the direction-specific
leading-edge cells OF THAT CENTER are inspected (contrast `walkLoop`, which
inspects the first step's cells at every step). -/
def specWalkLoop (b : Board) (dest : Int × Int) (idxs : List Nat)
    (dr dc : Int) : Nat → Int × Int → WalkRes
  | 0, _ => .fuelOut
  | fuel + 1, center =>
    if center = dest then .done true
    else
      let keys := idxs.filterMap fun i => (footprintCoords center).get? i
      match keysClear b keys with
      | .error _ => .done false
      | .ok false => .done false
      | .ok true => specWalkLoop b dest idxs dr dc fuel (center.1 + dr, center.2 + dc)

/-- The spec's obstruction check: walk from one step past the start toward
the destination, re-deriving the leading-edge cells at every step. -/
def specLeadingEdgeWalk (b : Board) (sc dc : Int × Int) (dir : Dir) : WalkRes :=
  let data := dirData dir
  specWalkLoop b dc data.1 data.2.1 data.2.2 walkFuel (sc.1 + data.2.1, sc.2 + data.2.2)

/-- Wrap an integer index into 0..19 (what Python indexing does for indices
in -20..-1; the identity on 0..19). -/
def wrap20 (i : Int) : Fin 20 :=
  ⟨(i % 20).toNat, by omega⟩

/-- The 8 peripheral cells of a candidate center in footprint order
(NW, W, SW, S, N, NE, E, SE), with indices resolved by Python wraparound
(the identity for in-grid coordinates; -1 wraps to 19). -/
def periphWrapped (r c : Fin 20) : List (Fin 20 × Fin 20) :=
  [(wrap20 ((r.val : Int) - 1), wrap20 ((c.val : Int) - 1)),
   (wrap20 ((r.val : Int)), wrap20 ((c.val : Int) - 1)),
   (wrap20 ((r.val : Int) + 1), wrap20 ((c.val : Int) - 1)),
   (wrap20 ((r.val : Int) + 1), wrap20 ((c.val : Int))),
   (wrap20 ((r.val : Int) - 1), wrap20 ((c.val : Int))),
   (wrap20 ((r.val : Int) - 1), wrap20 ((c.val : Int) + 1)),
   (wrap20 ((r.val : Int)), wrap20 ((c.val : Int) + 1)),
   (wrap20 ((r.val : Int) + 1), wrap20 ((c.val : Int) + 1))]

/-- The claim's (spec's) notion of a surviving ring at a candidate: the
candidate cell is Empty, all 8 peripheral coordinates are inside the grid
(so the center is in 1..18 on both axes, and the wrapped coordinates are
the literal ones), and all 8 peripherals are owned by the waiting player. -/
def specRingClaimAt (b : Board) (w : Cell) (r c : Fin 20) : Bool :=
  (b r c == .E) && 1 ≤ r.val && r.val ≤ 18 && 1 ≤ c.val && c.val ≤ 18 &&
    ((periphWrapped r c).countP (fun q => b q.1 q.2 == w) == 8)

/-- The claim's (spec's) whole-board ring scan. -/
def specHasRingClaim (b : Board) (w : Cell) : Bool :=
  (List.finRange 20).any fun r =>
    (List.finRange 20).any fun c => specRingClaimAt b w r c

/-- What the source's detector actually counts at a candidate: the center
must be in 0..18 on both axes (a coordinate ≥ 20 raises the caught
`IndexError` and skips the candidate), and the 8 peripheral cells UNDER
PYTHON WRAPAROUND must all be owned by the waiting player (`-1` wraps to
`19`; the center cell, being empty, never contributes to the count). -/
def specWrappedRingAt (b : Board) (w : Cell) (r c : Fin 20) : Bool :=
  (b r c == .E) && r.val ≤ 18 && c.val ≤ 18 &&
    ((periphWrapped r c).countP (fun q => b q.1 q.2 == w) == 8)

/-- Whole-board scan of `specWrappedRingAt`. -/
def specWrappedHasRing (b : Board) (w : Cell) : Bool :=
  (List.finRange 20).any fun r =>
    (List.finRange 20).any fun c => specWrappedRingAt b w r c

/-- A board holding exactly the 8 white stones that Python wraparound sees
as the 8 neighbors of the empty corner cell (0,0): a phantom "ring" whose
peripheral coordinates are partly outside the grid. -/
def wrapBoard : Board := fun r c =>
  if (r.val, c.val) ∈ ([(19, 19), (0, 19), (1, 19), (1, 0), (19, 0),
                        (19, 1), (0, 1), (1, 1)] : List (Nat × Nat))
  then .W else .E

/-- A game state whose board is `wrapBoard`, with White waiting. -/
def wrapState : GState :=
  { gameState := .UNFINISHED, current := .BLACK, waiting := .WHITE, board := wrapBoard }

/-- The `i`-th coordinate of a footprint (the footprint list has 9 items). -/
def fpCoord (p : Int × Int) (i : Fin 9) : Int × Int :=
  (footprintCoords p).getD i.val (0, 0)

/-- A coordinate pair resolved by Python wraparound. -/
def wrapC (p : Int × Int) : Fin 20 × Fin 20 :=
  (wrap20 p.1, wrap20 p.2)

/-- The canonical human notation for column index `c` and human row number
`n + 1`: a letter a..t followed by a number 1..20 with no leading zeros. -/
def mkHuman (c n : Fin 20) : String :=
  String.mk (Char.ofNat ('a'.toNat + c.val) :: (toString (n.val + 1)).data)

/-- A sequence of writes at already-resolved coordinates. -/
def foldSet (b : Board) (l : List ((Fin 20 × Fin 20) × Cell)) : Board :=
  l.foldl (fun bb qc => setR bb qc.1 qc.2) b

/-! ### Theorems -/

/-- C1: the claim says that once the status is terminal every `make_move`
and `resign` call is rejected with no state change.  The code has no
terminal-status guard at all: after Black resigns (status `WHITE_WON`), the
move c3->c6 is accepted and mutates the board (the stone at grid (17,2)
disappears), while the status stays `WHITE_WON`. -/
theorem moves_accepted_after_game_over :
    (resignGame initState).gameState = .WHITE_WON ∧
    (makeMove (resignGame initState) "c3" "c6").1 = .accepted ∧
    (makeMove (resignGame initState) "c3" "c6").2.board 17 2 = .E ∧
    (resignGame initState).board 17 2 = .B ∧
    (makeMove (resignGame initState) "c3" "c6").2.gameState = .WHITE_WON := by
  decide

/-- C2: the claim says `make_move` never aborts on any input strings, and in
particular not on syntactically valid coordinates whose footprint spills off
the grid.  In the code, the start coordinate "a1" (valid letter, valid row)
makes `is_valid_piece` read board row 20, raising an uncaught `IndexError`;
the pair ("ab","c3") raises an uncaught `ValueError` from `int("b")`. -/
theorem make_move_crashes_on_edge_coordinate :
    (makeMove initState "a1" "a2").1 = .crash .indexError ∧
    (makeMove initState "ab" "c3").1 = .crash .valueError := by
  decide

/-- C3 counterexample: the pair of centers (14,13) and (12,14) (the source's
own "n6 to o8" example) has row-delta 2 and column-delta 1 — nonzero and
unequal in magnitude — yet `direction_allowed`'s determination step
classifies it as northeast, not as invalid: L-shaped moves are NOT rejected
at the direction-determination step. -/
theorem lshape_classified_as_diagonal :
    desiredDirection (14, 13) (12, 14) = .northeast ∧
    ((14 : Int) - 12).natAbs ≠ ((13 : Int) - 14).natAbs ∧
    ((14 : Int) - 12).natAbs ≠ 0 ∧ ((13 : Int) - 14).natAbs ≠ 0 := by
  decide

/-- C3 amended: the direction-determination step classifies a move purely by
the signs of the center deltas: it yields `invalid` exactly when the two
centers coincide, and any pair with both deltas nonzero is classified as the
diagonal given by the signs alone, regardless of magnitudes. -/
theorem desiredDirection_sign_characterization (s d : Int × Int) :
    (desiredDirection s d = .invalid ↔ s = d) ∧
    (s.1 < d.1 → s.2 < d.2 → desiredDirection s d = .southeast) ∧
    (s.1 < d.1 → s.2 > d.2 → desiredDirection s d = .southwest) ∧
    (s.1 > d.1 → s.2 < d.2 → desiredDirection s d = .northeast) ∧
    (s.1 > d.1 → s.2 > d.2 → desiredDirection s d = .northwest) := by
  obtain ⟨s1, s2⟩ := s
  obtain ⟨d1, d2⟩ := d
  simp only [Prod.mk.injEq]
  unfold desiredDirection
  split_ifs with h1 h2 h3 h4 h5 h6 h7 h8 <;>
    refine ⟨?_, fun a b => ?_, fun a b => ?_, fun a b => ?_, fun a b => ?_⟩ <;>
      first
        | rfl
        | (exfalso; omega)
        | exact iff_of_false (by decide) (by omega)
        | exact iff_of_true rfl ⟨by omega, by omega⟩

/-- C3 amended, witnessed at the concrete L-shaped input (14,13)->(12,14). -/
theorem desiredDirection_sign_characterization_witness :
    desiredDirection (14, 13) (12, 14) = .northeast :=
  (desiredDirection_sign_characterization (14, 13) (12, 14)).2.2.2.1
    (by decide) (by decide)

/-- C4: the claim (and the spec) say the obstruction walk re-derives the
inspected leading-edge cells at each step.  In the code, `key_locations` is
computed once from the first step's footprint and never again, so the walk
inspects the same cells forever.  Concretely, from the initial board the
northward move c3->c13 passes straight through the black stone at grid
(13,2): the code's walk reports the path clear and `make_move` accepts and
executes the move, while a walk that re-derives the leading-edge cells at
each step (as the spec describes) reports the path obstructed. -/
theorem stale_leading_edge_accepts_obstructed_move :
    (makeMove initState "c3" "c13").1 = .accepted ∧
    obstructionCheck initState.board (17, 2) (7, 2) .north = .done true ∧
    specLeadingEdgeWalk initState.board (17, 2) (7, 2) .north = .done false ∧
    initState.board 13 2 = .B := by
  decide

/-- C5: the claim says any input whose numeric part is outside 1..20 is
rejected as an invalid coordinate with no state change.  In the code, only
the letter is checked (via `KeyError`); the row `20 - int(suffix)` is
unchecked, so "c22" decodes silently to row -2, Python's negative indexing
wraps it onto the board, and from the initial position the move
c22->c23 is ACCEPTED and moves stones (grid cell (16,1) changes E -> B). -/
theorem out_of_range_row_accepted :
    decode "c22" = .ok (-2, 2) ∧
    (makeMove initState "c22" "c23").1 = .accepted ∧
    (makeMove initState "c22" "c23").2.board 16 1 = .B ∧
    initState.board 16 1 = .E := by
  decide

/-- C9: the coordinate codec round-trips: encoding any grid coordinate and
decoding it back is the identity, and decoding any canonical human
coordinate (letter a..t, number 1..20) and re-encoding it returns the
original string. -/
theorem coordinate_roundtrip :
    (∀ r c : Fin 20,
      (encode ((r.val : Int), (c.val : Int))).bind decode =
        .ok ((r.val : Int), (c.val : Int))) ∧
    (∀ c n : Fin 20,
      decode (mkHuman c n) = .ok (20 - ((n.val : Int) + 1), (c.val : Int)) ∧
      encode (20 - ((n.val : Int) + 1), (c.val : Int)) = .ok (mkHuman c n)) := by
  decide

/-- C8: every rejection path of `make_move` returns before `execute_move`
runs, so a rejected call leaves the status, both player identities, and all
400 board cells exactly as they were. -/
theorem rejected_move_preserves_state (s : GState) (a b : String)
    (why : Reason) (s' : GState) (h : makeMove s a b = (.rejected why, s')) :
    s'.gameState = s.gameState ∧ s'.current = s.current ∧
    s'.waiting = s.waiting ∧ ∀ r c : Fin 20, s'.board r c = s.board r c := by
  have hs : s' = s := by
    rcases hv : moveVerdict s a b with why' | e | _ | ⟨sc, dc⟩
    · simp only [makeMove, hv] at h
      injection h with h1 h2
      exact h2.symm
    · simp only [makeMove, hv] at h
      injection h with h1 h2
      exact MoveRes.noConfusion h1
    · simp only [makeMove, hv] at h
      injection h with h1 h2
      exact MoveRes.noConfusion h1
    · rcases hex : executeMove s.board sc dc with ⟨e, b'⟩ | b' <;>
        simp only [makeMove, hv, hex] at h <;>
        · injection h with h1 h2
          exact MoveRes.noConfusion h1
  subst hs
  exact ⟨rfl, rfl, rfl, fun _ _ => rfl⟩

/-- C8 witnessed at a concrete rejected call (the spec's own TooFar
scenario c5->f9 from the initial position). -/
theorem rejected_move_preserves_state_witness :
    initState.gameState = initState.gameState ∧
    initState.current = initState.current ∧
    initState.waiting = initState.waiting ∧
    ∀ r c : Fin 20, initState.board r c = initState.board r c :=
  rejected_move_preserves_state initState "c5" "f9" .tooFar initState (by decide)

/-- The pair of players, current moves only in `update_game` (swap) and
nowhere else: `check_for_win` only touches the status. -/
theorem checkForWin_players (s : GState) :
    (checkForWin s).current = s.current ∧ (checkForWin s).waiting = s.waiting := by
  unfold checkForWin
  split <;> simp

/-- `update_game` either swaps the players or leaves both unchanged. -/
theorem updateGame_players (s : GState) :
    ((updateGame s).current = s.current ∧ (updateGame s).waiting = s.waiting) ∨
    ((updateGame s).current = s.waiting ∧ (updateGame s).waiting = s.current) := by
  unfold updateGame
  split
  · exact .inl ⟨rfl, rfl⟩
  · exact .inr ⟨rfl, rfl⟩

/-- Every `make_move` call either swaps the players or leaves both
unchanged, whatever its outcome. -/
theorem makeMove_players (s : GState) (a b : String) :
    (((makeMove s a b).2.current = s.current ∧
      (makeMove s a b).2.waiting = s.waiting) ∨
     ((makeMove s a b).2.current = s.waiting ∧
      (makeMove s a b).2.waiting = s.current)) := by
  rcases hv : moveVerdict s a b with why' | e | _ | ⟨sc, dc⟩
  · simp only [makeMove, hv]
    left
    exact ⟨trivial, trivial⟩
  · simp only [makeMove, hv]
    left
    exact ⟨trivial, trivial⟩
  · simp only [makeMove, hv]
    left
    exact ⟨trivial, trivial⟩
  · rcases hex : executeMove s.board sc dc with ⟨e, b'⟩ | b' <;>
      simp only [makeMove, hv, hex]
    · left
      exact ⟨trivial, trivial⟩
    · have hc := checkForWin_players { s with board := b' }
      rcases updateGame_players (checkForWin { s with board := b' }) with ⟨h1, h2⟩ | ⟨h1, h2⟩
      · exact .inl ⟨by rw [h1]; exact hc.1, by rw [h2]; exact hc.2⟩
      · exact .inr ⟨by rw [h1]; exact hc.2, by rw [h2]; exact hc.1⟩

/-- The two player identities as they must relate: one of the two
assignments of BLACK and WHITE. -/
def playersOK (s : GState) : Prop :=
  (s.current = .BLACK ∧ s.waiting = .WHITE) ∨
  (s.current = .WHITE ∧ s.waiting = .BLACK)

/-- Any single API call either swaps the players or leaves them unchanged. -/
theorem stepOp_players (s : GState) (op : Op) :
    (((stepOp s op).current = s.current ∧ (stepOp s op).waiting = s.waiting) ∨
     ((stepOp s op).current = s.waiting ∧ (stepOp s op).waiting = s.current)) := by
  cases op with
  | move a b => exact makeMove_players s a b
  | resign =>
    show ((resignGame s).current = s.current ∧ (resignGame s).waiting = s.waiting) ∨ _
    unfold resignGame
    split <;> exact .inl ⟨rfl, rfl⟩

/-- `playersOK` is preserved by every API call. -/
theorem stepOp_playersOK (s : GState) (op : Op) (h : playersOK s) :
    playersOK (stepOp s op) := by
  rcases stepOp_players s op with ⟨h1, h2⟩ | ⟨h1, h2⟩ <;>
    rcases h with ⟨hc, hw⟩ | ⟨hc, hw⟩ <;>
      simp [playersOK, h1, h2, hc, hw]

/-- `playersOK` holds after any run from any `playersOK` state. -/
theorem runOps_playersOK (ops : List Op) (s : GState) (h : playersOK s) :
    playersOK (runOps s ops) := by
  induction ops generalizing s with
  | nil => exact h
  | cons op rest ih => exact ih (stepOp s op) (stepOp_playersOK s op h)

/-- C10: along any sequence of `make_move` / `resign` calls from a fresh
game, (current, waiting) is always a permutation of (BLACK, WHITE) — the
two are never equal and no third identity appears — and each individual
call either swaps the pair or leaves both fields unchanged. -/
theorem players_always_permutation :
    (∀ ops : List Op, playersOK (runOps initState ops) ∧
      (runOps initState ops).current ≠ (runOps initState ops).waiting) ∧
    (∀ (s : GState) (op : Op),
      ((stepOp s op).current = s.current ∧ (stepOp s op).waiting = s.waiting) ∨
      ((stepOp s op).current = s.waiting ∧ (stepOp s op).waiting = s.current)) := by
  refine ⟨fun ops => ?_, stepOp_players⟩
  have h : playersOK (runOps initState ops) :=
    runOps_playersOK ops initState (.inl ⟨rfl, rfl⟩)
  refine ⟨h, ?_⟩
  rcases h with ⟨hc, hw⟩ | ⟨hc, hw⟩ <;> simp [hc, hw]

/-! ### Resolution lemmas for Python indexing -/

theorem pyResolve_eq_wrap20 {i : Int} (h1 : -20 ≤ i) (h2 : i < 20) :
    pyResolve i = .ok (wrap20 i) := by
  unfold pyResolve wrap20
  split_ifs with h h'
  · exact congrArg Except.ok (Fin.ext (show i.toNat = (i % 20).toNat by omega))
  · exact congrArg Except.ok (Fin.ext (show (i + 20).toNat = (i % 20).toNat by omega))
  · omega

theorem pyResolve_hi {i : Int} (h : 20 ≤ i) : pyResolve i = .error .indexError := by
  unfold pyResolve
  split_ifs <;> first | omega | rfl

theorem pyGet_pair (b : Board) (x y : Int) (h1 : -20 ≤ x) (h2 : x < 20)
    (h3 : -20 ≤ y) (h4 : y < 20) :
    pyGet b (x, y) = .ok (b (wrap20 x) (wrap20 y)) := by
  unfold pyGet
  rw [show (x, y).1 = x from rfl, show (x, y).2 = y from rfl,
    pyResolve_eq_wrap20 h1 h2, pyResolve_eq_wrap20 h3 h4]

theorem pyGet_hi_row (b : Board) (x y : Int) (hx : 20 ≤ x) :
    pyGet b (x, y) = .error .indexError := by
  unfold pyGet
  rw [show (x, y).1 = x from rfl, pyResolve_hi hx]

theorem pyGet_hi_col (b : Board) (x y : Int) (h1 : -20 ≤ x) (h2 : x < 20)
    (hy : 20 ≤ y) :
    pyGet b (x, y) = .error .indexError := by
  unfold pyGet
  rw [show (x, y).1 = x from rfl, show (x, y).2 = y from rfl,
    pyResolve_eq_wrap20 h1 h2, pyResolve_hi hy]

theorem wrap20_coe (r : Fin 20) : wrap20 ((r.val : Int)) = r := by
  have hlt := r.isLt
  exact Fin.ext (show (((r.val : Int)) % 20).toNat = r.val by omega)

theorem ownCell_ne_E (pl : Player) : ownCell pl ≠ .E := by
  cases pl <;> simp [ownCell]

theorem footprintCoords_pair (x y : Int) :
    footprintCoords (x, y) =
      [(x, y), (x - 1, y - 1), (x, y - 1), (x + 1, y - 1), (x + 1, y),
       (x - 1, y), (x - 1, y + 1), (x, y + 1), (x + 1, y + 1)] := rfl

theorem readCells_eq_map (b : Board) (l : List (Int × Int))
    (h : ∀ p ∈ l, -20 ≤ p.1 ∧ p.1 < 20 ∧ -20 ≤ p.2 ∧ p.2 < 20) :
    readCells b l = .ok (l.map fun p => b (wrap20 p.1) (wrap20 p.2)) := by
  induction l with
  | nil => rfl
  | cons p rest ih =>
    obtain ⟨x, y⟩ := p
    obtain ⟨h1, h2, h3, h4⟩ := h (x, y) (List.mem_cons_self _ _)
    have hrest : ∀ q ∈ rest, -20 ≤ q.1 ∧ q.1 < 20 ∧ -20 ≤ q.2 ∧ q.2 < 20 :=
      fun q hq => h q (List.mem_cons_of_mem _ hq)
    simp only [readCells, pyGet_pair b x y h1 h2 h3 h4, ih hrest, List.map_cons]

/-! ### C7: the win detector -/

/-- C7 counterexample: on `wrapBoard` the waiting player (White) has NO
surviving ring in the claim's sense (every candidate whose 8 peripheral
coordinates lie inside the grid fails), so the claim demands that
`check_for_win` set the status to the mover's win; but the detector does
not skip the corner candidate (0,0) — whose peripheral coordinates -1 fall
outside the grid and wrap to index 19 — counts a phantom ring there, and
leaves the status `UNFINISHED`. -/
theorem win_detector_wraparound_counterexample :
    specHasRingClaim wrapBoard .W = false ∧
    codeRingAt wrapBoard .W 0 0 = true ∧
    (checkForWin wrapState).gameState = .UNFINISHED ∧
    wonOf wrapState.current = .BLACK_WON := by
  decide

/-- The per-candidate decision of the detector, characterised: a candidate
is counted as a ring exactly when its center is in rows 0..18 and columns
0..18 (a coordinate reaching 20 raises the caught `IndexError` and skips
the candidate; negative coordinates do NOT skip it), its cell is empty, and
its 8 peripheral cells under Python wraparound all hold the waiting
player's stones. -/
theorem ringAt_eq_wrapped (b : Board) (pl : Player) (r c : Fin 20) :
    codeRingAt b (ownCell pl) r c = specWrappedRingAt b (ownCell pl) r c := by
  have hrlt := r.isLt
  have hclt := c.isLt
  by_cases hr : r.val ≤ 18
  · by_cases hc : c.val ≤ 18
    · have hread : readCells b (footprintCoords ((r.val : Int), (c.val : Int))) =
          .ok ((footprintCoords ((r.val : Int), (c.val : Int))).map
            fun p => b (wrap20 p.1) (wrap20 p.2)) := by
        apply readCells_eq_map
        intro p hp
        rw [footprintCoords_pair] at hp
        simp only [List.mem_cons, List.not_mem_nil, or_false] at hp
        rcases hp with rfl | rfl | rfl | rfl | rfl | rfl | rfl | rfl | rfl <;>
          exact ⟨by dsimp only; omega, by dsimp only; omega,
                 by dsimp only; omega, by dsimp only; omega⟩
      have hne : (Cell.E == ownCell pl) = false := by
        cases pl <;> decide
      simp only [codeRingAt, countOwned, hread, specWrappedRingAt, hr, hc]
      cases hE : (b r c == Cell.E)
      · have hne' : ¬b r c = Cell.E := by simpa using hE
        simp [hE, hne']
      · have hEe : b r c = .E := by
          simpa using hE
        simp only [hE, Bool.true_and, footprintCoords_pair, List.map_cons,
          List.map_nil, wrap20_coe, List.count_cons, List.count_nil,
          periphWrapped, List.countP_cons, List.countP_nil, hEe, hne]
        simp [hr, hc]
    · have hc19 : c.val = 19 := by omega
      have e0 := pyGet_pair b ((r.val : Int)) ((c.val : Int))
        (by omega) (by omega) (by omega) (by omega)
      have e1 := pyGet_pair b ((r.val : Int) - 1) ((c.val : Int) - 1)
        (by omega) (by omega) (by omega) (by omega)
      have e2 := pyGet_pair b ((r.val : Int)) ((c.val : Int) - 1)
        (by omega) (by omega) (by omega) (by omega)
      have e3 := pyGet_pair b ((r.val : Int) + 1) ((c.val : Int) - 1)
        (by omega) (by omega) (by omega) (by omega)
      have e4 := pyGet_pair b ((r.val : Int) + 1) ((c.val : Int))
        (by omega) (by omega) (by omega) (by omega)
      have e5 := pyGet_pair b ((r.val : Int) - 1) ((c.val : Int))
        (by omega) (by omega) (by omega) (by omega)
      have e6 := pyGet_hi_col b ((r.val : Int) - 1) ((c.val : Int) + 1)
        (by omega) (by omega) (by omega)
      simp only [codeRingAt, countOwned, footprintCoords_pair, readCells,
        e0, e1, e2, e3, e4, e5, e6, specWrappedRingAt]
      simp [hc]
  · have hr19 : r.val = 19 := by omega
    have e0 := pyGet_pair b ((r.val : Int)) ((c.val : Int))
      (by omega) (by omega) (by omega) (by omega)
    have e1 := pyGet_pair b ((r.val : Int) - 1) ((c.val : Int) - 1)
      (by omega) (by omega) (by omega) (by omega)
    have e2 := pyGet_pair b ((r.val : Int)) ((c.val : Int) - 1)
      (by omega) (by omega) (by omega) (by omega)
    have e3 := pyGet_hi_row b ((r.val : Int) + 1) ((c.val : Int) - 1) (by omega)
    simp only [codeRingAt, countOwned, footprintCoords_pair, readCells,
      e0, e1, e2, e3, specWrappedRingAt]
    simp [hr]

/-- The whole-board scans agree. -/
theorem hasRingCode_eq_wrapped (b : Board) (pl : Player) :
    hasRingCode b (ownCell pl) = specWrappedHasRing b (ownCell pl) := by
  simp only [hasRingCode, specWrappedHasRing, ringAt_eq_wrapped]

/-- C7 amended: the detector considers the Empty cells as candidates but
skips only candidates whose footprint reaches row or column 20 (those in
row 19 or column 19); candidates in row 0 or column 0 are NOT skipped —
their -1 peripheral coordinates wrap to index 19 — and a ring is counted
when the 8 wrapped peripheral cells all hold the waiting player's stones.
The status becomes the mover's win exactly when no such candidate exists. -/
theorem checkForWin_wrapped_characterization :
    (∀ (b : Board) (pl : Player) (r c : Fin 20),
      codeRingAt b (ownCell pl) r c = specWrappedRingAt b (ownCell pl) r c) ∧
    (∀ s : GState,
      (checkForWin s).gameState =
        if specWrappedHasRing s.board (ownCell s.waiting) then s.gameState
        else wonOf s.current) := by
  refine ⟨ringAt_eq_wrapped, fun s => ?_⟩
  unfold checkForWin
  rw [hasRingCode_eq_wrapped s.board s.waiting]
  split <;> simp

/-! ### C6: the move executor -/

theorem pySet_pair (b : Board) (x y : Int) (v : Cell) (h1 : -20 ≤ x)
    (h2 : x < 20) (h3 : -20 ≤ y) (h4 : y < 20) :
    pySet b (x, y) v = .ok (setR b (wrap20 x, wrap20 y) v) := by
  unfold pySet
  rw [show (x, y).1 = x from rfl, show (x, y).2 = y from rfl,
    pyResolve_eq_wrap20 h1 h2, pyResolve_eq_wrap20 h3 h4]

theorem writeSeq_eq_foldSet (b : Board) (l : List ((Int × Int) × Cell))
    (h : ∀ pc ∈ l, -20 ≤ pc.1.1 ∧ pc.1.1 < 20 ∧ -20 ≤ pc.1.2 ∧ pc.1.2 < 20) :
    writeSeq b l = (foldSet b (l.map fun pc => (wrapC pc.1, pc.2)), none) := by
  induction l generalizing b with
  | nil => rfl
  | cons pc rest ih =>
    obtain ⟨⟨x, y⟩, v⟩ := pc
    obtain ⟨h1, h2, h3, h4⟩ := h _ (List.mem_cons_self _ _)
    simp only [writeSeq, pySet_pair b x y v h1 h2 h3 h4,
      ih (setR b (wrap20 x, wrap20 y) v) (fun q hq => h q (List.mem_cons_of_mem _ hq)),
      List.map_cons, foldSet, List.foldl_cons]
    rfl

theorem foldSet_notin (b : Board) (l : List ((Fin 20 × Fin 20) × Cell))
    (q : Fin 20 × Fin 20) (h : ∀ pc ∈ l, pc.1 ≠ q) :
    foldSet b l q.1 q.2 = b q.1 q.2 := by
  induction l generalizing b with
  | nil => rfl
  | cons pc rest ih =>
    have hstep : foldSet b (pc :: rest) = foldSet (setR b pc.1 pc.2) rest := rfl
    rw [hstep, ih (setR b pc.1 pc.2) (fun q' hq' => h q' (List.mem_cons_of_mem _ hq'))]
    unfold setR
    rw [if_neg]
    intro hcon
    exact h pc (List.mem_cons_self _ _) (Prod.ext hcon.1.symm hcon.2.symm)

theorem foldSet_mem (b : Board) (l : List ((Fin 20 × Fin 20) × Cell))
    (hnd : (l.map Prod.fst).Nodup) (q : Fin 20 × Fin 20) (v : Cell)
    (h : (q, v) ∈ l) : foldSet b l q.1 q.2 = v := by
  induction l generalizing b with
  | nil => cases h
  | cons pc rest ih =>
    have hstep : foldSet b (pc :: rest) = foldSet (setR b pc.1 pc.2) rest := rfl
    have hnd' : pc.1 ∉ rest.map Prod.fst ∧ (rest.map Prod.fst).Nodup :=
      List.nodup_cons.mp hnd
    rcases List.mem_cons.mp h with heq | hmem
    · have hq1 : pc.1 = q := by rw [← heq]
      have hnotin : ∀ pc' ∈ rest, pc'.1 ≠ q := by
        intro pc' hpc' heq'
        apply hnd'.1
        rw [hq1, ← heq']
        exact List.mem_map_of_mem _ hpc'
      rw [hstep, foldSet_notin (setR b pc.1 pc.2) rest q hnotin, ← heq]
      show (if q.1 = q.1 ∧ q.2 = q.2 then v else b q.1 q.2) = v
      rw [if_pos ⟨rfl, rfl⟩]
    · rw [hstep]
      exact ih (setR b pc.1 pc.2) hnd'.2 hmem

theorem fpWrap_nodup (x y : Int) (h1 : -19 ≤ x) (h2 : x ≤ 18) (h3 : -19 ≤ y)
    (h4 : y ≤ 18) : ((footprintCoords (x, y)).map wrapC).Nodup := by
  rw [footprintCoords_pair]
  simp only [List.map_cons, List.map_nil, wrapC, List.nodup_cons, List.mem_cons,
    List.not_mem_nil, or_false, List.nodup_nil, and_true, Prod.mk.injEq, not_or]
  unfold wrap20
  simp only [Fin.mk.injEq]
  repeat' apply And.intro
  all_goals intro hcon
  all_goals first
    | exact hcon
    | omega

theorem fpCoord_mem (p : Int × Int) (i : Fin 9) :
    fpCoord p i ∈ footprintCoords p := by
  fin_cases i <;> simp [fpCoord, footprintCoords]

/-- C6: `execute_move` snapshots the 9 start cells before clearing, so after
any successful execution the 9 destination cells (under Python index
resolution) hold exactly the 9 pre-move start-cell values in the same fixed
index order, and every start cell not shared with the destination footprint
is Empty — also when the two footprints overlap. -/
theorem executeMove_moves_contents (b : Board) (sx sy dx dy : Int)
    (h1 : -19 ≤ sx) (h2 : sx ≤ 18) (h3 : -19 ≤ sy) (h4 : sy ≤ 18)
    (h5 : -19 ≤ dx) (h6 : dx ≤ 18) (h7 : -19 ≤ dy) (h8 : dy ≤ 18) :
    ∃ b' : Board, executeMove b (sx, sy) (dx, dy) = .ok b' ∧
      (∀ i : Fin 9,
        b' (wrapC (fpCoord (dx, dy) i)).1 (wrapC (fpCoord (dx, dy) i)).2 =
          b (wrapC (fpCoord (sx, sy) i)).1 (wrapC (fpCoord (sx, sy) i)).2) ∧
      (∀ i : Fin 9,
        (∀ j : Fin 9, wrapC (fpCoord (sx, sy) i) ≠ wrapC (fpCoord (dx, dy) j)) →
        b' (wrapC (fpCoord (sx, sy) i)).1 (wrapC (fpCoord (sx, sy) i)).2 = .E) := by
  have hsB : ∀ p ∈ footprintCoords (sx, sy),
      -20 ≤ p.1 ∧ p.1 < 20 ∧ -20 ≤ p.2 ∧ p.2 < 20 := by
    rw [footprintCoords_pair]
    intro p hp
    simp only [List.mem_cons, List.not_mem_nil, or_false] at hp
    rcases hp with rfl | rfl | rfl | rfl | rfl | rfl | rfl | rfl | rfl <;>
      exact ⟨by dsimp only; omega, by dsimp only; omega,
             by dsimp only; omega, by dsimp only; omega⟩
  have hdB : ∀ p ∈ footprintCoords (dx, dy),
      -20 ≤ p.1 ∧ p.1 < 20 ∧ -20 ≤ p.2 ∧ p.2 < 20 := by
    rw [footprintCoords_pair]
    intro p hp
    simp only [List.mem_cons, List.not_mem_nil, or_false] at hp
    rcases hp with rfl | rfl | rfl | rfl | rfl | rfl | rfl | rfl | rfl <;>
      exact ⟨by dsimp only; omega, by dsimp only; omega,
             by dsimp only; omega, by dsimp only; omega⟩
  have hread := readCells_eq_map b (footprintCoords (sx, sy)) hsB
  have hclear := writeSeq_eq_foldSet b
    ((footprintCoords (sx, sy)).map fun p => (p, Cell.E))
    (by
      intro pc hpc
      rcases List.mem_map.mp hpc with ⟨p, hp, rfl⟩
      exact hsB p hp)
  have hwrite := writeSeq_eq_foldSet
    (foldSet b (((footprintCoords (sx, sy)).map fun p => (p, Cell.E)).map
      fun pc => (wrapC pc.1, pc.2)))
    ((footprintCoords (dx, dy)).zip
      ((footprintCoords (sx, sy)).map fun p => b (wrap20 p.1) (wrap20 p.2)))
    (by
      intro pc hpc
      exact hdB pc.1 (List.of_mem_zip hpc).1)
  refine ⟨foldSet
    (foldSet b (((footprintCoords (sx, sy)).map fun p => (p, Cell.E)).map
      fun pc => (wrapC pc.1, pc.2)))
    ((((footprintCoords (dx, dy)).zip
      ((footprintCoords (sx, sy)).map fun p => b (wrap20 p.1) (wrap20 p.2))).map
      fun pc => (wrapC pc.1, pc.2))), ?_, ?_, ?_⟩
  · simp only [executeMove, hread, hclear, hwrite]
  · intro i
    apply foldSet_mem
    · rw [show ((((footprintCoords (dx, dy)).zip
          ((footprintCoords (sx, sy)).map fun p => b (wrap20 p.1) (wrap20 p.2))).map
          fun pc => (wrapC pc.1, pc.2)).map Prod.fst) =
          (footprintCoords (dx, dy)).map wrapC from rfl]
      exact fpWrap_nodup dx dy h5 h6 h7 h8
    · fin_cases i <;>
        simp [fpCoord, footprintCoords, wrapC, List.mem_cons]
  · intro i hdisj
    have houter : ∀ pc ∈ (((footprintCoords (dx, dy)).zip
        ((footprintCoords (sx, sy)).map fun p => b (wrap20 p.1) (wrap20 p.2))).map
        fun pc => (wrapC pc.1, pc.2)), pc.1 ≠ wrapC (fpCoord (sx, sy) i) := by
      intro pc hpc heq
      rcases List.mem_map.mp hpc with ⟨⟨p, v⟩, hmem, rfl⟩
      have hp := (List.of_mem_zip hmem).1
      rw [footprintCoords_pair] at hp
      simp only [List.mem_cons, List.not_mem_nil, or_false] at hp
      rcases hp with rfl | rfl | rfl | rfl | rfl | rfl | rfl | rfl | rfl
      · exact hdisj ⟨0, by omega⟩ heq.symm
      · exact hdisj ⟨1, by omega⟩ heq.symm
      · exact hdisj ⟨2, by omega⟩ heq.symm
      · exact hdisj ⟨3, by omega⟩ heq.symm
      · exact hdisj ⟨4, by omega⟩ heq.symm
      · exact hdisj ⟨5, by omega⟩ heq.symm
      · exact hdisj ⟨6, by omega⟩ heq.symm
      · exact hdisj ⟨7, by omega⟩ heq.symm
      · exact hdisj ⟨8, by omega⟩ heq.symm
    rw [foldSet_notin _ _ _ houter]
    apply foldSet_mem
    · rw [show ((((footprintCoords (sx, sy)).map fun p => (p, Cell.E)).map
          fun pc => (wrapC pc.1, pc.2)).map Prod.fst) =
          (footprintCoords (sx, sy)).map wrapC from rfl]
      exact fpWrap_nodup sx sy h1 h2 h3 h4
    · have : (wrapC (fpCoord (sx, sy) i), Cell.E) =
          (fun pc : (Int × Int) × Cell => (wrapC pc.1, pc.2)) (fpCoord (sx, sy) i, Cell.E) := rfl
      rw [this]
      exact List.mem_map_of_mem _
        (List.mem_map_of_mem _ (fpCoord_mem (sx, sy) i))

/-- C6 witnessed at adjacent (overlapping) footprints on the initial board:
the move c3 -> c2 (start center (17,2), destination center (18,2)). -/
theorem executeMove_moves_contents_witness :
    ∃ b' : Board, executeMove initBoard (17, 2) (18, 2) = .ok b' ∧
      (∀ i : Fin 9,
        b' (wrapC (fpCoord (18, 2) i)).1 (wrapC (fpCoord (18, 2) i)).2 =
          initBoard (wrapC (fpCoord (17, 2) i)).1 (wrapC (fpCoord (17, 2) i)).2) ∧
      (∀ i : Fin 9,
        (∀ j : Fin 9, wrapC (fpCoord (17, 2) i) ≠ wrapC (fpCoord (18, 2) j)) →
        b' (wrapC (fpCoord (17, 2) i)).1 (wrapC (fpCoord (17, 2) i)).2 = .E) :=
  executeMove_moves_contents initBoard 17 2 18 2 (by norm_num) (by norm_num)
    (by norm_num) (by norm_num) (by norm_num) (by norm_num) (by norm_num)
    (by norm_num)

end Gess
